import Mathlib

/-!
Verification of the AION Wallet SDK (TypeScript, `src/index.ts` and
`src/client.ts`) against its natural-language specification.

The wallet module's pure logic (`validateAddress`, the base58 codec it
relies on, `importFromMnemonic`, `generateWallet`) and the platform
client (`AIONClient`) are shallowly embedded below.  External
cryptographic dependencies (`bip39`, `ed25519-hd-key`, the ed25519
keypair construction) are modelled as an abstract deterministic
environment `CryptoEnv`, since they are third-party npm packages whose
only property relevant to the specification is that they are pure
functions of their inputs.  The `bs58` dependency (the base-x codec at
the standard Bitcoin alphabet) is embedded concretely, since the
address-validation claims depend on its arithmetic.
-/

/-! ## Base58 codec (model of the `bs58` / `base-x` dependency)

`base-x` converts the big-endian numeric value of the input byte string
to base-58 digits, prefixing one `'1'` per leading zero byte; decoding
inverts this, failing on any character outside the alphabet.  The
byte-by-byte carry loops of `base-x` compute exactly the positional
value conversions written here.
-/

/-- The bs58 alphabet (Bitcoin base58: no 0, I, O, l). -/
def BASE58_CHARS : List Char :=
  "123456789ABCDEFGHJKLMNPQRSTUVWXYZabcdefghijkmnopqrstuvwxyz".toList

/-- Character class of the regex `[1-9A-HJ-NP-Za-km-z]` used by
`validateAddress` in `src/index.ts`. -/
def base58CharTest (c : Char) : Bool :=
  ('1' ≤ c && c ≤ '9') || ('A' ≤ c && c ≤ 'H') || ('J' ≤ c && c ≤ 'N') ||
  ('P' ≤ c && c ≤ 'Z') || ('a' ≤ c && c ≤ 'k') || ('m' ≤ c && c ≤ 'z')

/-- The digit value of a character under the bs58 alphabet (`BASE_MAP`
lookup in `base-x`); `none` for a character outside the alphabet. -/
def charToBase58Digit (c : Char) : Option Nat :=
  if c ∈ BASE58_CHARS then some (BASE58_CHARS.indexOf c) else none

/-- The alphabet character of a base-58 digit. -/
def base58DigitChar (d : Nat) : Char := BASE58_CHARS.getD d '1'

/-- Little-endian base-`b` digits of `n`, with explicit fuel so the
definition is structurally recursive (kernel-reducible).  With
`fuel ≥ n` this agrees with `Nat.digits b n` for `b ≥ 2`. -/
def natDigitsAux (b : Nat) : Nat → Nat → List Nat
  | _, 0 => []
  | 0, _ + 1 => []
  | fuel + 1, n + 1 => ((n + 1) % b) :: natDigitsAux b fuel ((n + 1) / b)

/-- Little-endian base-`b` digits of `n` (empty for 0). -/
def natDigits (b n : Nat) : List Nat := natDigitsAux b n n

/-- Number of leading zero entries of a list (the leading zero bytes of
the input in `base-x` encode, the leading `'1'` digits in decode). -/
def countLeading0 : List Nat → Nat
  | [] => 0
  | d :: ds => if d = 0 then countLeading0 ds + 1 else 0

/-- Big-endian positional value of a digit list. -/
def beVal (base : Nat) (ds : List Nat) : Nat :=
  ds.foldl (fun a d => a * base + d) 0

/-- `bs58.encode`: one `'1'` per leading zero byte, then the base-58
digits (big-endian) of the numeric value of the bytes. -/
def base58Encode (bytes : List Nat) : String :=
  String.mk (List.replicate (countLeading0 bytes) '1' ++
    ((natDigits 58 (beVal 256 bytes)).reverse.map base58DigitChar))

/-- Digit values of a character list; `none` as soon as one character
is outside the alphabet (`base-x` decode throws there). -/
def base58DigitsOfChars : List Char → Option (List Nat)
  | [] => some []
  | c :: cs =>
    (charToBase58Digit c).bind fun d =>
      (base58DigitsOfChars cs).map fun ds => d :: ds

/-- `bs58.decode`: fails on a character outside the alphabet; otherwise
one zero byte per leading `'1'`, followed by the big-endian bytes of
the numeric value of the digits. -/
def base58Decode (s : String) : Option (List Nat) :=
  match base58DigitsOfChars s.toList with
  | none => none
  | some ds =>
    some (List.replicate (countLeading0 ds) 0 ++
      (natDigits 256 (beVal 58 ds)).reverse)

/-! ## Wallet module (`src/index.ts`) -/

/-- The regex test `/^[1-9A-HJ-NP-Za-km-z]+$/.test(address)`: at least
one character, all in the class. -/
def base58RegexTest (s : String) : Bool :=
  !s.toList.isEmpty && s.toList.all base58CharTest

/-- `validateAddress` from `src/index.ts`: length in [32,44], then the
base58 regex, then decode must yield exactly 32 bytes; the surrounding
try/catch turns a decode failure into `false`. -/
def validateAddress (address : String) : Bool :=
  if address.length < 32 || 44 < address.length then false
  else if !(base58RegexTest address) then false
  else
    match base58Decode address with
    | some decoded => decoded.length == 32
    | none => false

example : validateAddress "11111111111111111111111111111111" = true := by decide
example : validateAddress "InvalidAddress123" = false := by decide

/-- An error raised by the SDK.  `src/index.ts` and `src/client.ts`
throw plain `Error`s; the spec's taxonomy distinguishes `InvalidInput`
(bad mnemonic / bad address, carrying the thrown message), `ApiError`
(non-2xx HTTP status, carrying the observed status code), and a
network-level transport failure (`fetch` rejecting), which the model
uses when the supplied response trace is exhausted. -/
inductive SdkError
  | invalidInput (message : String)
  | apiError (status : Nat)
  | networkFailure
deriving DecidableEq, Repr

/-- `Wallet` interface of `src/index.ts`: base58 public key, raw
secret-key bytes, mnemonic phrase (empty for a manually set wallet). -/
structure Wallet where
  publicKey : String
  secretKey : List Nat
  mnemonic : String
deriving DecidableEq, Repr

/-- `ImportedWallet` interface of `src/index.ts` (no mnemonic echo). -/
structure ImportedWallet where
  publicKey : String
  secretKey : List Nat
deriving DecidableEq, Repr

/-- Abstract model of the external cryptographic dependencies: `bip39`
(`validateMnemonic`, `mnemonicToSeedSync`), `ed25519-hd-key`
(`derivePath`, applied to the path string and the hex rendering of the
seed), and the ed25519 public-key derivation inside
`Keypair.fromSeed`.  All are pure, deterministic library functions;
the SDK source treats them as black boxes, and so does this model.
Per the ed25519 convention (and the spec's data model), the 64-byte
secret key is the 32-byte derived seed followed by the 32-byte public
key, and `PublicKey.toBase58` is base58 over the 32 public-key bytes. -/
structure CryptoEnv where
  validateMnemonic : String → Bool
  mnemonicToSeed : String → List Nat
  derivePath : String → String → List Nat
  fromSeedPub : List Nat → List Nat

/-- The apostrophe character (codepoint 39), used in the derivation
path literal of the TypeScript source. -/
def tick : String := String.mk [Char.ofNat 39]

/-- The fixed Solana derivation path of `src/index.ts`,
`m/44'/501'/0'/0'` (apostrophes spelled via `tick`). -/
def DERIVATION_PATH : String :=
  "m/44" ++ tick ++ "/501" ++ tick ++ "/0" ++ tick ++ "/0" ++ tick

/-- Lower-case hex rendering of a byte list, modelling
`Buffer.toString('hex')` applied to the seed. -/
def bytesToHex (bs : List Nat) : String :=
  String.mk (bs.foldr (fun b acc =>
    "0123456789abcdef".toList.getD (b / 16) '0' ::
    "0123456789abcdef".toList.getD (b % 16) '0' :: acc) [])

/-- `generateWallet` from `src/index.ts`.  The source draws a fresh
random mnemonic from `bip39.generateMnemonic(256)`; the randomness is
modelled by taking the drawn mnemonic as the `mnemonic` argument.  The
rest is the source's pipeline: seed from the mnemonic, hierarchical
derivation at the fixed path, keypair from the derived seed. -/
def generateWallet (env : CryptoEnv) (mnemonic : String) : Wallet :=
  let seed := env.mnemonicToSeed mnemonic
  let derived := env.derivePath DERIVATION_PATH (bytesToHex seed)
  let pub := env.fromSeedPub derived
  { publicKey := base58Encode pub
    secretKey := derived ++ pub
    mnemonic := mnemonic }

/-- `importFromMnemonic` from `src/index.ts`: reject the phrase unless
`bip39.validateMnemonic` accepts it, then run the identical derivation
pipeline as `generateWallet`. -/
def importFromMnemonic (env : CryptoEnv) (mnemonic : String) :
    Except SdkError ImportedWallet :=
  if !(env.validateMnemonic mnemonic) then
    .error (.invalidInput "Invalid mnemonic phrase")
  else
    let seed := env.mnemonicToSeed mnemonic
    let derived := env.derivePath DERIVATION_PATH (bytesToHex seed)
    let pub := env.fromSeedPub derived
    .ok { publicKey := base58Encode pub, secretKey := derived ++ pub }

/-- A concrete instantiation of the cryptographic environment, used to
evaluate the parametric theorems on closed inputs.  (The real bip39 /
ed25519 functions satisfy the same signatures; no theorem below depends
on any property of this instance beyond what is stated.) -/
def testCryptoEnv : CryptoEnv where
  validateMnemonic := fun s => s.length != 0
  mnemonicToSeed := fun s => List.replicate 64 (s.length % 256)
  derivePath := fun p h => List.replicate 32 ((p.length + h.length) % 256)
  fromSeedPub := fun k => k.map (fun b => (b + 1) % 256)

/-! ## Platform client (`src/client.ts`) -/

/-- `ClaimResult` interface of `src/client.ts`. -/
structure ClaimResult where
  success : Bool
  message : Option String
  error : Option String
  tokenAmount : Option Int
deriving DecidableEq, Repr

/-- `Challenge` interface of `src/client.ts`. -/
structure Challenge where
  id : String
  slug : String
  title : String
  description : String
  requirements : Option String
  reward_amount : Int
  status : String
  deadline : Option String
deriving DecidableEq, Repr

/-- `BugBountyCategory` interface of `src/client.ts`. -/
structure BugBountyCategory where
  category : String
  reward : String
  description : String
deriving DecidableEq, Repr

/-- `AgentStats` interface of `src/client.ts`. -/
structure AgentStats where
  username : String
  claimed : Bool
  tokenAmount : Option Int
  bugReports : Option Int
  challengesSolved : Option Int
deriving DecidableEq, Repr

/-- An HTTP response as seen after `response.json()`: the status code
and the decoded body (typed per endpoint).  `ok` on a `fetch` response
is status in 200–299. -/
structure HttpResponse (α : Type) where
  status : Nat
  body : α
deriving DecidableEq, Repr

/-- `Response.ok`: status in the inclusive range 200–299. -/
def isOkStatus (status : Nat) : Bool := 200 ≤ status && status ≤ 299

/-- Decoded body of the POST `/agent` `start_claim` response; the
fields are absent (`none`) when the server omits them (JavaScript
`undefined`). -/
structure AgentStartBody where
  claim_code : Option String
  message : Option String
deriving DecidableEq, Repr

/-- Decoded body of the GET `/bug-bounty` response. -/
structure BugBountyBody where
  categories : Option (List BugBountyCategory)
deriving DecidableEq, Repr

/-- Decoded body of the GET `/challenges` response. -/
structure ChallengesBody where
  challenges : Option (List Challenge)
deriving DecidableEq, Repr

/-- Decoded body of the two submission endpoints. -/
structure SubmitResult where
  success : Bool
  message : String
deriving DecidableEq, Repr

/-- The mutable fields of an `AIONClient` instance: the username fixed
at construction, the optional wallet, and the optional claim code. -/
structure ClientState where
  username : String
  wallet : Option Wallet
  claimCode : Option String
deriving DecidableEq, Repr

/-- `new AIONClient(username)`. -/
def mkClient (username : String) : ClientState :=
  { username := username, wallet := none, claimCode := none }

/-- JavaScript truthiness of the `claimCode` field (`string | null`,
possibly `undefined` when copied from an absent response field): `null`
/ `undefined` and the empty string are falsy. -/
def truthyOpt : Option String → Bool
  | none => false
  | some s => s != ""

/-- JavaScript string interpolation of the `claimCode` field inside a
template literal: an absent value renders as "undefined" (the stored
field at the interpolation point is either a string or the `undefined`
copied out of the response body; `null` never reaches interpolation
because it is falsy and triggers the implicit `startClaim`). -/
def interpOpt : Option String → String
  | none => "undefined"
  | some s => s

/-- `API_BASE` constant of `src/client.ts`. -/
def API_BASE : String := "https://www.aionworld.cloud/api"

/-- `this.wallet?.publicKey ?? null`. -/
def walletAddressGet (st : ClientState) : Option String :=
  st.wallet.map Wallet.publicKey

/-- `setWalletAddress(address)` from `src/client.ts`: throws naming
the offending address when `validateAddress` rejects it; otherwise
stores a manual wallet (empty secret key, empty mnemonic) and returns
`true`. -/
def setWalletAddress (st : ClientState) (address : String) :
    ClientState × Except SdkError Bool :=
  if !(validateAddress address) then
    (st, .error (.invalidInput ("Invalid Solana address: " ++ address)))
  else
    ({ st with wallet := some { publicKey := address, secretKey := [], mnemonic := "" } },
     .ok true)

/-- `generateWallet()` method of the client: stores the fresh wallet
and returns its public key and mnemonic. -/
def clientGenerateWallet (env : CryptoEnv) (st : ClientState) (mnemonic : String) :
    ClientState × String × String :=
  let w := generateWallet env mnemonic
  ({ st with wallet := some w }, w.publicKey, w.mnemonic)

/-- `importWallet(mnemonic)` method of the client: imports, stores the
imported wallet (with empty mnemonic echo, per the `Wallet` shape it is
stored into), and returns the public key; an import failure
propagates. -/
def importWallet (env : CryptoEnv) (st : ClientState) (mnemonic : String) :
    ClientState × Except SdkError String :=
  match importFromMnemonic env mnemonic with
  | .error e => (st, .error e)
  | .ok w =>
    ({ st with wallet := some { publicKey := w.publicKey, secretKey := w.secretKey, mnemonic := "" } },
     .ok w.publicKey)

/-- `startClaim()` from `src/client.ts`, with the network modelled as a
trace of pending responses for the POST `/agent` endpoint: consumes the
next response; on a non-ok status throws `ApiError` with the status
(before touching any state); on success stores `data.claim_code` into
`claimCode` and returns the body. -/
def startClaim (st : ClientState) :
    List (HttpResponse AgentStartBody) →
    ClientState × List (HttpResponse AgentStartBody) × Except SdkError AgentStartBody
  | [] => (st, [], .error .networkFailure)
  | r :: t =>
    if !(isOkStatus r.status) then (st, t, .error (.apiError r.status))
    else ({ st with claimCode := r.body.claim_code }, t, .ok r.body)

/-- The request body built by `completeClaim`: `action`, `username`,
`post_url`, and — when `walletAddress || this.walletAddress` is truthy
— a `wallet_address` field. -/
def completeClaimPayload (st : ClientState) (postUrl : String)
    (walletAddress : Option String) : List (String × String) :=
  let address : Option String :=
    match walletAddress with
    | some a => if a == "" then walletAddressGet st else some a
    | none => walletAddressGet st
  let base := [("action", "complete_claim"), ("username", st.username),
               ("post_url", postUrl)]
  match address with
  | some a => if a == "" then base else base ++ [("wallet_address", a)]
  | none => base

/-- Field lookup in a request body. -/
def lookupField (payload : List (String × String)) (key : String) : Option String :=
  (payload.find? (fun p => p.1 == key)).map Prod.snd

/-- `completeClaim(postUrl, walletAddress?)` from `src/client.ts`:
sends `completeClaimPayload`; a non-ok status throws `ApiError` with
the status, otherwise the decoded body is returned unchanged.  No
client state is modified. -/
def completeClaim (st : ClientState) (postUrl : String)
    (walletAddress : Option String) (resp : HttpResponse ClaimResult) :
    ClientState × Except SdkError ClaimResult :=
  let _payload := completeClaimPayload st postUrl walletAddress
  if !(isOkStatus resp.status) then (st, .error (.apiError resp.status))
  else (st, .ok resp.body)

/-- `claim(postUrl)`: alias for `completeClaim` with no explicit
address. -/
def claim (st : ClientState) (postUrl : String) (resp : HttpResponse ClaimResult) :
    ClientState × Except SdkError ClaimResult :=
  completeClaim st postUrl none resp

/-- The fixed verification-message template of
`getVerificationMessage` with the claim code spliced in. -/
def verificationTemplate (code : String) : String :=
  "Claiming my $AION tokens!\n\nVerification: " ++ code ++ "\n\nwww.aionworld.cloud"

/-- `getVerificationMessage()` from `src/client.ts`: if the stored
claim code is falsy (`null` or empty), first performs `startClaim()`
(consuming one response; its failure propagates); then formats the
template with the stored claim code. -/
def getVerificationMessage (st : ClientState)
    (trace : List (HttpResponse AgentStartBody)) :
    ClientState × List (HttpResponse AgentStartBody) × Except SdkError String :=
  if truthyOpt st.claimCode then
    (st, trace, .ok (verificationTemplate (interpOpt st.claimCode)))
  else
    match startClaim st trace with
    | (st', t', .error e) => (st', t', .error e)
    | (st', t', .ok _) =>
      (st', t', .ok (verificationTemplate (interpOpt st'.claimCode)))

/-- `getBugBounties()` from `src/client.ts`: non-ok status throws
`ApiError`; otherwise returns `data.categories || []`. -/
def getBugBounties (st : ClientState) (resp : HttpResponse BugBountyBody) :
    ClientState × Except SdkError (List BugBountyCategory) :=
  if !(isOkStatus resp.status) then (st, .error (.apiError resp.status))
  else (st, .ok (resp.body.categories.getD []))

/-- The GET `/challenges` request URL; the `status` parameter defaults
to `"open"` exactly as in `getChallenges(status: string = 'open')`. -/
def getChallengesUrl (status : String := "open") : String :=
  API_BASE ++ "/challenges?status=" ++ status

/-- `getChallenges(status = 'open')` response handling: non-ok status
throws `ApiError`; otherwise returns `data.challenges || []`. -/
def getChallenges (st : ClientState) (resp : HttpResponse ChallengesBody) :
    ClientState × Except SdkError (List Challenge) :=
  if !(isOkStatus resp.status) then (st, .error (.apiError resp.status))
  else (st, .ok (resp.body.challenges.getD []))

/-- Caller-supplied fields of `submitBugReport`. -/
structure BugReportParams where
  category : String
  title : String
  description : String
  stepsToReproduce : Option String
  expectedBehavior : Option String
  actualBehavior : Option String
deriving DecidableEq, Repr

/-- `submitBugReport(params)` response handling: non-ok status throws
`ApiError`; otherwise the decoded body is returned unchanged. -/
def submitBugReport (st : ClientState) (_params : BugReportParams)
    (resp : HttpResponse SubmitResult) :
    ClientState × Except SdkError SubmitResult :=
  if !(isOkStatus resp.status) then (st, .error (.apiError resp.status))
  else (st, .ok resp.body)

/-- Caller-supplied fields of `submitChallengeSolution`. -/
structure ChallengeSolutionParams where
  challengeSlug : String
  solutionUrl : String
  description : String
deriving DecidableEq, Repr

/-- `submitChallengeSolution(params)` response handling: non-ok status
throws `ApiError`; otherwise the decoded body is returned unchanged. -/
def submitChallengeSolution (st : ClientState) (_params : ChallengeSolutionParams)
    (resp : HttpResponse SubmitResult) :
    ClientState × Except SdkError SubmitResult :=
  if !(isOkStatus resp.status) then (st, .error (.apiError resp.status))
  else (st, .ok resp.body)

/-- `getMyStats()` response handling: non-ok status throws `ApiError`;
otherwise the decoded stats object is returned unchanged. -/
def getMyStats (st : ClientState) (resp : HttpResponse AgentStats) :
    ClientState × Except SdkError AgentStats :=
  if !(isOkStatus resp.status) then (st, .error (.apiError resp.status))
  else (st, .ok resp.body)

/-! ## Arithmetic lemmas about the base58 codec -/

theorem natDigitsAux_eq_digits {b : Nat} (hb : 2 ≤ b) :
    ∀ fuel n, n ≤ fuel → natDigitsAux b fuel n = Nat.digits b n := by
  intro fuel
  induction fuel with
  | zero =>
    intro n hn
    interval_cases n
    simp [natDigitsAux]
  | succ f ih =>
    intro n hn
    match n with
    | 0 => simp [natDigitsAux]
    | m + 1 =>
      rw [natDigitsAux, Nat.digits_def' (by omega : 1 < b) (Nat.succ_pos m)]
      congr 1
      exact ih _ (Nat.le_of_lt_succ
        (Nat.lt_of_lt_of_le (Nat.div_lt_self (Nat.succ_pos m) (by omega)) hn))

theorem natDigits_eq_digits {b : Nat} (hb : 2 ≤ b) (n : Nat) :
    natDigits b n = Nat.digits b n :=
  natDigitsAux_eq_digits hb n n (Nat.le_refl n)

theorem beVal_reverse_eq_ofDigits (b : Nat) (L : List Nat) :
    beVal b L.reverse = Nat.ofDigits b L := by
  unfold beVal
  rw [List.foldl_reverse]
  induction L with
  | nil => simp [Nat.ofDigits]
  | cons d ds ih =>
    simp only [List.foldr_cons, Nat.ofDigits_cons, ih]
    ring

theorem beVal_replicate_zero_append (b : Nat) (k : Nat) (l : List Nat) :
    beVal b (List.replicate k 0 ++ l) = beVal b l := by
  induction k with
  | zero => simp
  | succ m ih => simpa [beVal, List.replicate] using ih

theorem countLeading0_replicate_append (k : Nat) (l : List Nat) :
    countLeading0 (List.replicate k 0 ++ l) = k + countLeading0 l := by
  induction k with
  | zero => simp
  | succ m ih => simp [List.replicate, countLeading0, ih]; omega

theorem countLeading0_eq_zero_of_head {l : List Nat} {d : Nat}
    (h : l.head? = some d) (hd : d ≠ 0) : countLeading0 l = 0 := by
  match l with
  | [] => simp at h
  | x :: xs =>
    simp only [List.head?_cons, Option.some.injEq] at h
    subst h
    simp [countLeading0, hd]

theorem replicate_countLeading0_append_drop (l : List Nat) :
    List.replicate (countLeading0 l) 0 ++ l.drop (countLeading0 l) = l := by
  induction l with
  | nil => simp [countLeading0]
  | cons d ds ih =>
    by_cases hd : d = 0
    · subst hd
      simp [countLeading0, List.replicate, ih]
    · simp [countLeading0, hd]

theorem head_drop_countLeading0_ne_zero (l : List Nat) (d : Nat)
    (h : (l.drop (countLeading0 l)).head? = some d) : d ≠ 0 := by
  induction l with
  | nil => simp [countLeading0] at h
  | cons x xs ih =>
    by_cases hx : x = 0
    · subst hx
      simp only [countLeading0, if_pos rfl, List.drop_succ_cons] at h
      exact ih h
    · simp only [countLeading0, if_neg hx, List.drop_zero, List.head?_cons,
        Option.some.injEq] at h
      omega

theorem countLeading0_le_length (l : List Nat) : countLeading0 l ≤ l.length := by
  induction l with
  | nil => simp [countLeading0]
  | cons d ds ih =>
    by_cases hd : d = 0
    · subst hd; simp [countLeading0]; omega
    · simp [countLeading0, hd]

theorem charToBase58Digit_digitChar : ∀ d, d < 58 →
    charToBase58Digit (base58DigitChar d) = some d := by decide

theorem base58CharTest_digitChar : ∀ d, d < 58 →
    base58CharTest (base58DigitChar d) = true := by decide

theorem base58DigitsOfChars_replicate_one (k : Nat) (cs : List Char) :
    base58DigitsOfChars (List.replicate k '1' ++ cs) =
      (base58DigitsOfChars cs).map (fun ds => List.replicate k 0 ++ ds) := by
  induction k with
  | zero =>
    simp only [List.replicate, List.nil_append, List.replicate_zero]
    cases base58DigitsOfChars cs <;> simp
  | succ m ih =>
    have h1 : charToBase58Digit '1' = some 0 := by decide
    simp only [List.replicate_succ, List.cons_append, base58DigitsOfChars, h1,
      List.append_eq]
    rw [ih]
    cases base58DigitsOfChars cs <;> simp

theorem base58DigitsOfChars_map_digitChar (ds : List Nat)
    (h : ∀ d ∈ ds, d < 58) :
    base58DigitsOfChars (ds.map base58DigitChar) = some ds := by
  induction ds with
  | nil => simp [base58DigitsOfChars]
  | cons d rest ih =>
    simp only [List.map_cons, base58DigitsOfChars]
    rw [charToBase58Digit_digitChar d (h d (List.mem_cons_self d rest)),
      ih (fun x hx => h x (List.mem_cons_of_mem d hx))]
    rfl

theorem natDigits58_lt (n : Nat) : ∀ d ∈ natDigits 58 n, d < 58 := by
  intro d hd
  rw [natDigits_eq_digits (by norm_num)] at hd
  exact Nat.digits_lt_base (by norm_num) hd

/-- The big-endian base-256 reading of a byte list: its `Nat.digits`
are exactly the reversed byte list with the leading zeros stripped. -/
theorem digits_beVal_eq (bytes : List Nat) (h : ∀ b ∈ bytes, b < 256) :
    Nat.digits 256 (beVal 256 bytes) =
      (bytes.drop (countLeading0 bytes)).reverse := by
  set k := countLeading0 bytes with hk
  set suffix := bytes.drop k with hsuffix
  have hdecomp : List.replicate k 0 ++ suffix = bytes :=
    replicate_countLeading0_append_drop bytes
  have hnval : beVal 256 bytes = Nat.ofDigits 256 suffix.reverse := by
    rw [← hdecomp, beVal_replicate_zero_append, ← List.reverse_reverse suffix,
      beVal_reverse_eq_ofDigits, List.reverse_reverse]
  have hsufmem : ∀ x ∈ suffix.reverse, x < 256 := by
    intro x hx
    exact h x (List.drop_subset _ _ (List.mem_reverse.mp hx))
  have hsuflast : ∀ hne : suffix.reverse ≠ [], suffix.reverse.getLast hne ≠ 0 := by
    intro hne
    have hget : suffix.reverse.getLast? = suffix.head? := List.getLast?_reverse suffix
    have hmem := List.getLast?_eq_getLast suffix.reverse hne
    rw [hmem] at hget
    exact head_drop_countLeading0_ne_zero bytes _ hget.symm
  rw [hnval]
  exact Nat.digits_ofDigits 256 (by norm_num) suffix.reverse hsufmem hsuflast

/-- The complete round trip underlying address validation of encoded
byte strings: decoding an encoded byte list (all entries below 256)
recovers it exactly. -/
theorem base58Decode_encode (bytes : List Nat) (h : ∀ b ∈ bytes, b < 256) :
    base58Decode (base58Encode bytes) = some bytes := by
  set k := countLeading0 bytes with hk
  set suffix := bytes.drop k with hsuffix
  have hdecomp : List.replicate k 0 ++ suffix = bytes :=
    replicate_countLeading0_append_drop bytes
  set n := beVal 256 bytes with hn
  have hdig256 : Nat.digits 256 n = suffix.reverse := digits_beVal_eq bytes h
  -- evaluate the decode of the encode
  unfold base58Encode base58Decode
  have htl : (String.mk (List.replicate k '1' ++
      ((natDigits 58 n).reverse.map base58DigitChar))).toList =
      List.replicate k '1' ++ ((natDigits 58 n).reverse.map base58DigitChar) := rfl
  rw [htl, base58DigitsOfChars_replicate_one,
    base58DigitsOfChars_map_digitChar _
      (fun d hd => natDigits58_lt n d (List.mem_reverse.mp hd))]
  simp only [Option.map_some']
  set rev58 := (natDigits 58 n).reverse with hrev58
  have hcount : countLeading0 (List.replicate k 0 ++ rev58) = k := by
    rw [countLeading0_replicate_append]
    rcases Nat.eq_zero_or_pos n with hzero | hpos
    · have : natDigits 58 n = [] := by rw [hzero]; rfl
      rw [hrev58, this]
      simp [countLeading0]
    · have hne : n ≠ 0 := Nat.pos_iff_ne_zero.mp hpos
      have hlastne := Nat.getLast_digit_ne_zero 58 hne
      have hhead : rev58.head? = (Nat.digits 58 n).getLast? := by
        rw [hrev58, natDigits_eq_digits (by norm_num)]
        exact List.head?_reverse _
      have hgl := List.getLast?_eq_getLast (Nat.digits 58 n)
        (Nat.digits_ne_nil_iff_ne_zero.mpr hne)
      rw [hgl] at hhead
      rw [countLeading0_eq_zero_of_head hhead hlastne]
      omega
  have hval : beVal 58 (List.replicate k 0 ++ rev58) = n := by
    rw [beVal_replicate_zero_append, hrev58, beVal_reverse_eq_ofDigits,
      natDigits_eq_digits (by norm_num), Nat.ofDigits_digits]
  rw [hcount, hval, natDigits_eq_digits (by norm_num : (2:Nat) ≤ 256), hdig256,
    List.reverse_reverse]
  rw [hdecomp]

theorem pow_256_le_pow_58 (m : Nat) (hm : m ≤ 32) : 256 ^ m ≤ 58 ^ (m + 12) := by
  have h32 : (256 : Nat) ^ 32 ≤ 58 ^ 44 := by norm_num
  have h1 : (58 : Nat) ^ (32 - m) ≤ 256 ^ (32 - m) :=
    Nat.pow_le_pow_left (by norm_num) _
  have h4 : 256 ^ m * 58 ^ (32 - m) ≤ 58 ^ (m + 12) * 58 ^ (32 - m) := by
    calc 256 ^ m * 58 ^ (32 - m) ≤ 256 ^ m * 256 ^ (32 - m) :=
          Nat.mul_le_mul_left _ h1
      _ = 256 ^ 32 := by rw [← pow_add]; congr 1; omega
      _ ≤ 58 ^ 44 := h32
      _ = 58 ^ (m + 12) * 58 ^ (32 - m) := by rw [← pow_add]; congr 1; omega
  exact Nat.le_of_mul_le_mul_right h4 (pow_pos (by norm_num) _)

/-- Encoding 32 bytes always yields between 32 and 44 characters. -/
theorem base58Encode_length_bounds (bytes : List Nat) (h : ∀ b ∈ bytes, b < 256)
    (hlen : bytes.length = 32) :
    32 ≤ (base58Encode bytes).length ∧ (base58Encode bytes).length ≤ 44 := by
  set k := countLeading0 bytes with hk
  set n := beVal 256 bytes with hn
  have hkle : k ≤ 32 := hlen ▸ countLeading0_le_length bytes
  have hdig : Nat.digits 256 n = (bytes.drop k).reverse := digits_beVal_eq bytes h
  have hlen256 : (Nat.digits 256 n).length = 32 - k := by
    rw [hdig, List.length_reverse, List.length_drop, hlen]
  have hElen : (base58Encode bytes).length = k + (natDigits 58 n).length := by
    show (List.replicate (countLeading0 bytes) '1' ++
      ((natDigits 58 (beVal 256 bytes)).reverse.map base58DigitChar)).length = _
    rw [List.length_append, List.length_replicate, List.length_map,
      List.length_reverse, ← hk, ← hn]
  rw [hElen, natDigits_eq_digits (by norm_num : (2 : Nat) ≤ 58)]
  rcases Nat.eq_zero_or_pos n with h0 | hpos
  · have hd0 : (Nat.digits 256 n).length = 0 := by rw [h0]; simp
    have hL0 : (Nat.digits 58 n).length = 0 := by rw [h0]; simp
    omega
  · have hne : n ≠ 0 := by omega
    have h256len : (Nat.digits 256 n).length = Nat.log 256 n + 1 :=
      Nat.digits_len 256 n (by norm_num) hne
    have h58len : (Nat.digits 58 n).length = Nat.log 58 n + 1 :=
      Nat.digits_len 58 n (by norm_num) hne
    have hklt : k < 32 := by omega
    have hlog256 : Nat.log 256 n = 31 - k := by omega
    have hupper : n < 256 ^ (32 - k) := by
      have := Nat.lt_base_pow_length_digits (b := 256) (m := n) (by norm_num)
      rwa [hlen256] at this
    have hlower : 256 ^ (31 - k) ≤ n := by
      have := Nat.pow_log_le_self 256 hne
      rwa [hlog256] at this
    have hn58upper : n < 58 ^ (44 - k) := by
      have hb : 256 ^ (32 - k) ≤ 58 ^ (44 - k) := by
        have hp := pow_256_le_pow_58 (32 - k) (by omega)
        have heq : 32 - k + 12 = 44 - k := by omega
        rwa [heq] at hp
      omega
    have hn58lower : 58 ^ (31 - k) ≤ n :=
      le_trans (Nat.pow_le_pow_left (by norm_num) _) hlower
    have hlogup : Nat.log 58 n < 44 - k :=
      (Nat.lt_pow_iff_log_lt (by norm_num) hne).mp hn58upper
    have hloglow : 31 - k ≤ Nat.log 58 n :=
      (Nat.pow_le_iff_le_log (by norm_num) hne).mp hn58lower
    omega

/-- Every character produced by the encoder is in the regex class of
`validateAddress`. -/
theorem base58Encode_chars (bytes : List Nat) :
    ∀ c ∈ (base58Encode bytes).toList, base58CharTest c = true := by
  intro c hc
  have hc' : c ∈ List.replicate (countLeading0 bytes) '1' ++
      ((natDigits 58 (beVal 256 bytes)).reverse.map base58DigitChar) := hc
  rcases List.mem_append.mp hc' with h1 | h2
  · have := List.eq_of_mem_replicate h1
    subst this
    decide
  · rcases List.mem_map.mp h2 with ⟨d, hd, hdc⟩
    have hd58 : d < 58 := natDigits58_lt _ d (List.mem_reverse.mp hd)
    rw [← hdc]
    exact base58CharTest_digitChar d hd58

/-- Structural characterisation of `validateAddress`: true exactly when
the length is in [32, 44], every character passes the regex class, and
the base58 decode yields exactly 32 bytes. -/
theorem validateAddress_iff (s : String) :
    validateAddress s = true ↔
      (32 ≤ s.length ∧ s.length ≤ 44) ∧
      (∀ c ∈ s.toList, base58CharTest c = true) ∧
      ∃ bs, base58Decode s = some bs ∧ bs.length = 32 := by
  have hlen : s.length = s.toList.length := rfl
  unfold validateAddress
  by_cases h1 : (s.length < 32 || 44 < s.length) = true
  · rw [if_pos h1]
    simp only [Bool.or_eq_true, decide_eq_true_eq] at h1
    constructor
    · intro h; exact absurd h (by simp)
    · rintro ⟨⟨ha, hb⟩, -⟩; omega
  · rw [if_neg h1]
    simp only [Bool.or_eq_true, decide_eq_true_eq, not_or, Nat.not_lt] at h1
    obtain ⟨h32, h44⟩ := h1
    by_cases h2 : base58RegexTest s = true
    · rw [if_neg (by simp [h2])]
      have hchars : ∀ c ∈ s.toList, base58CharTest c = true := by
        have h2' := h2
        unfold base58RegexTest at h2'
        rw [Bool.and_eq_true, List.all_eq_true] at h2'
        exact fun c hc => h2'.2 c hc
      cases hdec : base58Decode s with
      | none =>
        simp only [hdec]
        constructor
        · intro h; exact absurd h (by simp)
        · rintro ⟨-, -, bs, hbs, -⟩; simp at hbs
      | some bs =>
        simp only [hdec, beq_iff_eq]
        constructor
        · intro h
          exact ⟨⟨h32, h44⟩, hchars, bs, rfl, h⟩
        · rintro ⟨-, -, bs', hbs', hlen'⟩
          obtain rfl : bs = bs' := by simpa using hbs'
          exact hlen'
    · have hregfalse : base58RegexTest s = false := by
        cases hreg : base58RegexTest s
        · rfl
        · exact absurd hreg h2
      rw [if_pos (by simp [hregfalse])]
      constructor
      · intro h; exact absurd h (by simp)
      · rintro ⟨⟨ha, hb⟩, hchars, -⟩
        exfalso
        apply h2
        unfold base58RegexTest
        rw [Bool.and_eq_true, List.all_eq_true]
        refine ⟨?_, fun c hc => hchars c hc⟩
        have hne : s.toList ≠ [] := by
          intro hnil
          rw [hlen, hnil] at ha
          simp at ha
        obtain ⟨c, cs, hcs⟩ := List.exists_cons_of_ne_nil hne
        rw [hcs]
        rfl

/-! ## Claim theorems -/

/-- C1: For every mnemonic phrase accepted by `importFromMnemonic`
(validated by the bip39 predicate), deriving a wallet from it twice
yields identical public keys and identical secret keys; and importing
the mnemonic of a freshly generated wallet yields exactly the generated
wallet's public and secret key, for every deterministic cryptographic
environment — the derived key is a function of the phrase and the fixed
path `DERIVATION_PATH` alone. -/
theorem importFromMnemonic_deterministic (env : CryptoEnv) (m : String)
    (hvalid : env.validateMnemonic m = true) :
    (∀ w1 w2, importFromMnemonic env m = .ok w1 → importFromMnemonic env m = .ok w2 →
      w1.publicKey = w2.publicKey ∧ w1.secretKey = w2.secretKey) ∧
    (∃ w, importFromMnemonic env ((generateWallet env m).mnemonic) = .ok w ∧
      w.publicKey = (generateWallet env m).publicKey ∧
      w.secretKey = (generateWallet env m).secretKey) := by
  constructor
  · intro w1 w2 h1 h2
    rw [h1] at h2
    cases h2
    exact ⟨rfl, rfl⟩
  · refine ⟨{ publicKey := (generateWallet env m).publicKey,
              secretKey := (generateWallet env m).secretKey }, ?_, rfl, rfl⟩
    show importFromMnemonic env m = _
    unfold importFromMnemonic generateWallet
    rw [hvalid]
    rfl

/-- Witness for C1 at a concrete environment and phrase. -/
theorem importFromMnemonic_deterministic_witness :
    testCryptoEnv.validateMnemonic "test phrase" = true ∧
    ∃ w, importFromMnemonic testCryptoEnv
        ((generateWallet testCryptoEnv "test phrase").mnemonic) = .ok w ∧
      w.publicKey = (generateWallet testCryptoEnv "test phrase").publicKey ∧
      w.secretKey = (generateWallet testCryptoEnv "test phrase").secretKey :=
  ⟨by decide,
   (importFromMnemonic_deterministic testCryptoEnv "test phrase" (by decide)).2⟩

/-- C4: a phrase rejected by the bip39 validation makes
`importFromMnemonic` fail with the `InvalidInput` error (no partially
constructed wallet is ever returned — the error is raised before any
derivation); a phrase the validation accepts always yields a wallet
with a public and secret key. -/
theorem importFromMnemonic_error_policy (env : CryptoEnv) (m : String) :
    (env.validateMnemonic m = false →
      importFromMnemonic env m = .error (.invalidInput "Invalid mnemonic phrase")) ∧
    (env.validateMnemonic m = true → ∃ w, importFromMnemonic env m = .ok w) := by
  constructor
  · intro hf
    unfold importFromMnemonic
    rw [hf]
    rfl
  · intro ht
    unfold importFromMnemonic
    rw [ht]
    exact ⟨_, rfl⟩

/-- Witness for C4 at a rejected and an accepted phrase. -/
theorem importFromMnemonic_error_policy_witness :
    testCryptoEnv.validateMnemonic "" = false ∧
    importFromMnemonic testCryptoEnv "" =
      .error (.invalidInput "Invalid mnemonic phrase") ∧
    testCryptoEnv.validateMnemonic "abandon ability able" = true ∧
    ∃ w, importFromMnemonic testCryptoEnv "abandon ability able" = .ok w :=
  ⟨by decide, (importFromMnemonic_error_policy testCryptoEnv "").1 (by decide),
   by decide,
   (importFromMnemonic_error_policy testCryptoEnv "abandon ability able").2 (by decide)⟩

/-- The validation policy as worded by the spec: length in [32, 44],
every character in the base58 class `1-9 A-H J-N P-Z a-k m-z`, and the
string base58-decodes to exactly 32 bytes. -/
def ValidAddressSpec (s : String) : Prop :=
  (32 ≤ s.length ∧ s.length ≤ 44) ∧
  (∀ c ∈ s.toList, base58CharTest c = true) ∧
  ∃ bs, base58Decode s = some bs ∧ bs.length = 32

/-- C2: `validateAddress` is a total boolean predicate (the model is a
total function into `Bool`, reflecting that the source's try/catch
converts every decode failure into `false` rather than an error), and
it returns `true` exactly when the three ordered checks of the spec all
pass: length in [32, 44], all characters in the base58 class, decode to
exactly 32 bytes. -/
theorem validateAddress_spec (s : String) :
    validateAddress s = true ↔ ValidAddressSpec s :=
  validateAddress_iff s

/-- C3: base58-encoding any 32-byte sequence yields a string accepted
by `validateAddress`; any string with length outside [32, 44] or with a
character outside the base58 class is rejected. -/
theorem base58_roundtrip_validation :
    (∀ bytes : List Nat, bytes.length = 32 → (∀ b ∈ bytes, b < 256) →
      validateAddress (base58Encode bytes) = true) ∧
    (∀ s : String,
      (s.length < 32 ∨ 44 < s.length ∨ ∃ c ∈ s.toList, base58CharTest c = false) →
      validateAddress s = false) := by
  constructor
  · intro bytes hlen hb
    rcases base58Encode_length_bounds bytes hb hlen with ⟨hlo, hhi⟩
    rw [validateAddress_iff]
    exact ⟨⟨hlo, hhi⟩, base58Encode_chars bytes,
      bytes, base58Decode_encode bytes hb, hlen⟩
  · intro s hbad
    cases hv : validateAddress s with
    | false => rfl
    | true =>
      exfalso
      rcases (validateAddress_iff s).mp hv with ⟨⟨h1, h2⟩, hchars, -⟩
      rcases hbad with h | h | ⟨c, hc, hcf⟩
      · omega
      · omega
      · rw [hchars c hc] at hcf
        exact absurd hcf (by simp)

/-- Witness for C3 at the all-zero 32-byte sequence and at a short
string. -/
theorem base58_roundtrip_validation_witness :
    validateAddress (base58Encode (List.replicate 32 0)) = true ∧
    validateAddress "tooShort" = false :=
  ⟨base58_roundtrip_validation.1 (List.replicate 32 0) (by decide) (by decide),
   base58_roundtrip_validation.2 "tooShort" (Or.inl (by decide))⟩

/-- C8: `setWalletAddress` fails with the `InvalidInput` error naming
the offending address exactly when `validateAddress` rejects it, and on
success stores a wallet whose public key is the given address and whose
secret key and mnemonic are both empty — so every wallet stored through
this path has an empty secret key and an empty mnemonic. -/
theorem setWalletAddress_spec (st : ClientState) (a : String) :
    (validateAddress a = false →
      setWalletAddress st a =
        (st, .error (.invalidInput ("Invalid Solana address: " ++ a)))) ∧
    (validateAddress a = true →
      setWalletAddress st a =
        ({ st with wallet := some { publicKey := a, secretKey := [], mnemonic := "" } },
         .ok true)) := by
  constructor
  · intro hf
    unfold setWalletAddress
    rw [hf]
    rfl
  · intro ht
    unfold setWalletAddress
    rw [ht]
    rfl

/-- Witness for C8 at the system-program address (valid) applied to a
fresh client. -/
theorem setWalletAddress_spec_witness :
    validateAddress "11111111111111111111111111111111" = true ∧
    setWalletAddress (mkClient "agent") "11111111111111111111111111111111" =
      ({ username := "agent",
         wallet := some { publicKey := "11111111111111111111111111111111",
                          secretKey := [], mnemonic := "" },
         claimCode := none }, .ok true) :=
  ⟨by decide,
   (setWalletAddress_spec (mkClient "agent") "11111111111111111111111111111111").2
     (by decide)⟩

/-- C6: every network-backed client operation surfaces a non-2xx HTTP
response as an `ApiError` carrying the observed status code, leaving
the client state unchanged; `startClaim` (stated over the response
trace) consumes exactly one response — no retry — and in particular
leaves the stored claim code untouched on error. -/
theorem apiError_policy (status : Nat) (h : isOkStatus status = false) :
    (∀ (st : ClientState) (b : AgentStartBody) (t : List (HttpResponse AgentStartBody)),
      startClaim st (⟨status, b⟩ :: t) = (st, t, .error (.apiError status))) ∧
    (∀ (st : ClientState) (postUrl : String) (wa : Option String) (b : ClaimResult),
      completeClaim st postUrl wa ⟨status, b⟩ = (st, .error (.apiError status))) ∧
    (∀ (st : ClientState) (b : BugBountyBody),
      getBugBounties st ⟨status, b⟩ = (st, .error (.apiError status))) ∧
    (∀ (st : ClientState) (p : BugReportParams) (b : SubmitResult),
      submitBugReport st p ⟨status, b⟩ = (st, .error (.apiError status))) ∧
    (∀ (st : ClientState) (b : ChallengesBody),
      getChallenges st ⟨status, b⟩ = (st, .error (.apiError status))) ∧
    (∀ (st : ClientState) (p : ChallengeSolutionParams) (b : SubmitResult),
      submitChallengeSolution st p ⟨status, b⟩ = (st, .error (.apiError status))) ∧
    (∀ (st : ClientState) (b : AgentStats),
      getMyStats st ⟨status, b⟩ = (st, .error (.apiError status))) := by
  refine ⟨?_, ?_, ?_, ?_, ?_, ?_, ?_⟩ <;> intros <;>
    simp [startClaim, completeClaim, getBugBounties, submitBugReport,
      getChallenges, submitChallengeSolution, getMyStats, h]

/-- Witness for C6 at status 500 on a fresh client's `startClaim`. -/
theorem apiError_policy_witness :
    isOkStatus 500 = false ∧
    startClaim (mkClient "agent") [⟨500, ⟨some "X", none⟩⟩] =
      (mkClient "agent", [], .error (.apiError 500)) :=
  ⟨by decide,
   (apiError_policy 500 (by decide)).1 (mkClient "agent") ⟨some "X", none⟩ []⟩

/-- Counterexample to C5 as stated: a successful `startClaim` can
return (and store) the empty-string claim code; the empty string is
falsy, so the subsequent `getVerificationMessage` performs another
network call (the trace shrinks from `[r2]` to `[]`) and formats the
second response's code `"Z"`, not the template with the code `""`
returned by the first `startClaim`. -/
theorem getVerificationMessage_empty_code_counterexample :
    startClaim (mkClient "agent")
        [⟨200, ⟨some "", some "ok"⟩⟩, ⟨200, ⟨some "Z", none⟩⟩] =
      ({ username := "agent", wallet := none, claimCode := some "" },
       [⟨200, ⟨some "Z", none⟩⟩], .ok ⟨some "", some "ok"⟩) ∧
    (getVerificationMessage
        { username := "agent", wallet := none, claimCode := some "" }
        [⟨200, ⟨some "Z", none⟩⟩]).2.1 = [] ∧
    (getVerificationMessage
        { username := "agent", wallet := none, claimCode := some "" }
        [⟨200, ⟨some "Z", none⟩⟩]).2.2 = .ok (verificationTemplate "Z") ∧
    ([] : List (HttpResponse AgentStartBody)) ≠ [⟨200, ⟨some "Z", none⟩⟩] ∧
    verificationTemplate "Z" ≠ verificationTemplate "" := by
  refine ⟨rfl, rfl, rfl, by decide, by decide⟩

/-- C5 (amended): after a successful `startClaim` returning a
*non-empty* claim code `c`, a subsequent `getVerificationMessage`
performs no further network call and returns exactly the fixed
template with `c` spliced in; and when no claim code is held (the
stored code is falsy), `getVerificationMessage` first performs exactly
one implicit `startClaim` call and then formats the same template with
the newly stored code. -/
theorem getVerificationMessage_template (st st1 : ClientState)
    (r : HttpResponse AgentStartBody) (t : List (HttpResponse AgentStartBody))
    (body : AgentStartBody) (c : String) :
    (startClaim st (r :: t) = (st1, t, .ok body) → body.claim_code = some c →
      c ≠ "" →
      getVerificationMessage st1 t = (st1, t, .ok (verificationTemplate c))) ∧
    (truthyOpt st.claimCode = false → isOkStatus r.status = true →
      getVerificationMessage st (r :: t) =
        ({ st with claimCode := r.body.claim_code }, t,
         .ok (verificationTemplate (interpOpt r.body.claim_code)))) := by
  constructor
  · intro hsc hcode hne
    cases hok : isOkStatus r.status with
    | false =>
      exfalso
      simp only [startClaim] at hsc
      rw [hok] at hsc
      simp at hsc
    | true =>
      simp only [startClaim] at hsc
      rw [hok] at hsc
      simp only [Bool.not_true, Bool.false_eq_true, if_false, Prod.mk.injEq] at hsc
      obtain ⟨hst1, -, hbody⟩ := hsc
      injection hbody with hb
      subst hst1
      have hrb : r.body.claim_code = some c := by rw [hb, hcode]
      rw [hrb]
      unfold getVerificationMessage
      have ht : truthyOpt
          (({ st with claimCode := some c } : ClientState).claimCode) = true := by
        simp [truthyOpt, hne]
      rw [if_pos ht]
      simp [interpOpt]
  · intro hfalsy hok
    unfold getVerificationMessage
    rw [if_neg (by simp [hfalsy])]
    simp only [startClaim]
    rw [hok]
    simp [interpOpt]

/-- Witness for C5 (amended): a stored non-empty code is formatted
without a network call. -/
theorem getVerificationMessage_template_witness :
    getVerificationMessage
        { username := "agent", wallet := none, claimCode := some "CODE" } [] =
      ({ username := "agent", wallet := none, claimCode := some "CODE" }, [],
       .ok (verificationTemplate "CODE")) :=
  (getVerificationMessage_template (mkClient "agent")
      { username := "agent", wallet := none, claimCode := some "CODE" }
      ⟨200, ⟨some "CODE", none⟩⟩ [] ⟨some "CODE", none⟩ "CODE").1
    rfl rfl (by decide)

/-- C10: `getVerificationMessage` performs its implicit `startClaim`
network call (observable as the head response being consumed from the
trace) exactly when the stored claim code is `null` or the empty
string; in particular a stored empty-string code is treated as no code
held. -/
theorem implicit_startClaim_iff (st : ClientState) (r : HttpResponse AgentStartBody)
    (t : List (HttpResponse AgentStartBody)) :
    (getVerificationMessage st (r :: t)).2.1 = t ↔
      (st.claimCode = none ∨ st.claimCode = some "") := by
  have hne : r :: t ≠ t := by
    intro h
    have := congrArg List.length h
    simp at this
  unfold getVerificationMessage
  cases hcc : st.claimCode with
  | none =>
    cases hok : isOkStatus r.status <;>
      simp [truthyOpt, startClaim, hok]
  | some s =>
    by_cases hs : s = ""
    · subst hs
      cases hok : isOkStatus r.status <;>
        simp [truthyOpt, startClaim, hok]
    · simp [truthyOpt, hs, hne]

theorem lookupField_with_address (u p a : String) :
    lookupField [("action", "complete_claim"), ("username", u), ("post_url", p),
      ("wallet_address", a)] "wallet_address" = some a := by
  simp [lookupField, List.find?]

theorem lookupField_without_address (u p : String) :
    lookupField [("action", "complete_claim"), ("username", u), ("post_url", p)]
      "wallet_address" = none := by
  simp [lookupField, List.find?]

/-- Counterexample to C7 as stated: the explicit `walletAddress`
argument is resolved through JavaScript truthiness (`walletAddress ||
this.walletAddress`), so an explicitly provided *empty-string* argument
is not used; the held wallet's public key is sent instead. -/
theorem completeClaim_empty_arg_counterexample :
    lookupField
      (completeClaimPayload
        { username := "agent",
          wallet := some { publicKey := "WALLETKEY", secretKey := [], mnemonic := "" },
          claimCode := none }
        "https://moltbook.com/post/1" (some ""))
      "wallet_address" = some "WALLETKEY" ∧
    some "WALLETKEY" ≠ some "" := ⟨rfl, by decide⟩

/-- C7 (amended): the `wallet_address` field of the `completeClaim`
request body is resolved as: the explicit `walletAddress` argument when
one is provided **and non-empty**; otherwise the held wallet's public
key when a wallet is held and its key is non-empty; otherwise the field
is omitted entirely. -/
theorem completeClaim_address_resolution (st : ClientState) (postUrl : String)
    (wa : Option String) :
    (∀ a, wa = some a → a ≠ "" →
      lookupField (completeClaimPayload st postUrl wa) "wallet_address" = some a) ∧
    ((wa = none ∨ wa = some "") → ∀ w, st.wallet = some w → w.publicKey ≠ "" →
      lookupField (completeClaimPayload st postUrl wa) "wallet_address" =
        some w.publicKey) ∧
    ((wa = none ∨ wa = some "") →
      (st.wallet = none ∨ ∃ w, st.wallet = some w ∧ w.publicKey = "") →
      lookupField (completeClaimPayload st postUrl wa) "wallet_address" = none) := by
  refine ⟨?_, ?_, ?_⟩
  · rintro a rfl hne
    simp [completeClaimPayload, hne, lookupField, List.find?]
  · rintro (rfl | rfl) w hw hpk <;>
      simp [completeClaimPayload, walletAddressGet, hw, hpk, lookupField, List.find?]
  · rintro (rfl | rfl) (hw | ⟨w, hw, hpk⟩) <;>
      simp_all [completeClaimPayload, walletAddressGet, lookupField, List.find?]

/-- Witness for C7 (amended): an explicit non-empty argument wins over
the held wallet. -/
theorem completeClaim_address_resolution_witness :
    lookupField
      (completeClaimPayload
        { username := "agent",
          wallet := some { publicKey := "WALLETKEY", secretKey := [], mnemonic := "" },
          claimCode := none }
        "https://moltbook.com/post/1" (some "EXPLICIT"))
      "wallet_address" = some "EXPLICIT" :=
  (completeClaim_address_resolution
      { username := "agent",
        wallet := some { publicKey := "WALLETKEY", secretKey := [], mnemonic := "" },
        claimCode := none }
      "https://moltbook.com/post/1" (some "EXPLICIT")).1 "EXPLICIT" rfl (by decide)

/-- C9: on an ok (2xx) decodable response, `getBugBounties` returns
the `categories` array of the payload and `getChallenges` the
`challenges` array, each defaulting to the empty list when the field is
absent; the `status` request parameter of `getChallenges` defaults to
`"open"` (the request URL built with the default argument is the
`status=open` URL). -/
theorem lenient_payload_policy (st : ClientState)
    (rb : HttpResponse BugBountyBody) (rc : HttpResponse ChallengesBody)
    (hb : isOkStatus rb.status = true) (hc : isOkStatus rc.status = true) :
    (∀ l, rb.body.categories = some l → getBugBounties st rb = (st, .ok l)) ∧
    (rb.body.categories = none → getBugBounties st rb = (st, .ok [])) ∧
    (∀ l, rc.body.challenges = some l → getChallenges st rc = (st, .ok l)) ∧
    (rc.body.challenges = none → getChallenges st rc = (st, .ok [])) ∧
    getChallengesUrl = API_BASE ++ "/challenges?status=" ++ "open" := by
  refine ⟨?_, ?_, ?_, ?_, rfl⟩ <;> intro h <;>
    simp_all [getBugBounties, getChallenges]

/-- Witness for C9: an ok response with the `categories` field absent
yields the empty list. -/
theorem lenient_payload_policy_witness :
    getBugBounties (mkClient "agent") ⟨200, ⟨none⟩⟩ = (mkClient "agent", .ok []) :=
  (lenient_payload_policy (mkClient "agent") ⟨200, ⟨none⟩⟩ ⟨200, ⟨none⟩⟩
    rfl rfl).2.1 rfl
